import Mathlib

/-!
Shallow embedding of the `vouch-py` extension core (`src/lib.rs`) for
specification checking.

The Rust code is embedded as executable Lean definitions:

* Network fetches are modelled by passing the HTTP response body (a `String`)
  as an explicit argument; everything after the fetch follows the source.
* `serde_json::Value` is modelled by the inductive `Json`, and
  `serde_json::from_str` by `jsonFromStr`, a fuel-based RFC 8259 parser
  (numbers are kept as their lexemes; no float semantics are needed by any
  function under verification).  `serde_json` backs objects with a sorted
  map whose keys are unique; the model keeps members in insertion order with
  duplicate keys resolved last-wins, which is observationally equivalent for
  the functions modelled here (they only look keys up, or sort all keys
  after parsing them as versions).
* `url::Url::parse` is modelled by `Url.parse`, restricted to the
  already-normalised absolute http(s) URL strings this crate feeds it:
  such strings parse and print back unchanged.
* `handlebars::Handlebars::render_template` is modelled for plain
  `\x7b\x7bvariable\x7d\x7d` substitution (the only feature the templates use),
  including the default HTML escaping of substituted values; an unknown
  variable renders as the empty string, as in non-strict handlebars.
* `semver::Version::parse` is modelled by `semverParse`, following the
  SemVer 2.0 grammar enforced by the `semver` crate: exactly three
  dot-separated ASCII-digit components, no leading zeros.  (The inputs the
  code hands it contain only digits and dots, so pre-release and build
  suffix handling is never exercised.)
* `anyhow` errors are modelled as `Except String` carrying the format
  string of the failure site.
* The filesystem is modelled as the list of existing file paths, a path
  being its list of components below the root; `identify_dependency_files`
  walks towards the root exactly as the `loop`/`pop` in the source.
-/

namespace VouchPy

/-! ### Model of `url::Url` (third-party crate) -/

/-- Left brace character, kept out of literals. -/
def lbrace : Char := Char.ofNat 123

/-- Right brace character, kept out of literals. -/
def rbrace : Char := Char.ofNat 125

/-- A parsed URL.  The crate normalises on parse; this model only accepts
strings that are already in normalised form, for which `toString` is the
identity. -/
structure Url where
  raw : String
deriving DecidableEq, Repr

/-- Characters the model accepts inside a URL (unreserved, sub-delims,
and the separators of the generic syntax): anything else would be
percent-encoded by the crate and hence not round-trip verbatim. -/
def urlCharOk (c : Char) : Bool :=
  c.isAlphanum || c = '-' || c = '.' || c = '_' || c = '~' || c = ':' ||
  c = '/' || c = '?' || c = '#' || c = '@' || c = '!' || c = '$' ||
  c = '&' || c = '*' || c = '+' || c = ',' || c = ';' || c = '=' || c = '%' ||
  c = '(' || c = ')'

/-- Model of `url::Url::parse`, restricted to normalised absolute http(s)
URLs with a nonempty host: these parse successfully and re-serialise to the
same string. -/
def Url.parse (s : String) : Option Url :=
  let cs := s.toList
  let afterScheme : Option (List Char) :=
    if ['h', 't', 't', 'p', 's', ':', '/', '/'].isPrefixOf cs then some (cs.drop 8)
    else if ['h', 't', 't', 'p', ':', '/', '/'].isPrefixOf cs then some (cs.drop 7)
    else none
  match afterScheme with
  | none => none
  | some rest =>
    let host := rest.takeWhile (fun c => c ≠ '/' ∧ c ≠ '?' ∧ c ≠ '#')
    if host ≠ [] ∧ cs.all urlCharOk then some ⟨s⟩ else none

/-- Model of `url::Url::to_string` on a parsed (normalised) URL. -/
def Url.toString (u : Url) : String := u.raw

/-! ### Model of `serde_json::Value` -/

/-- A JSON document, as produced by `serde_json::from_str::<Value>`.
Numbers keep their source lexeme: none of the embedded functions ever
inspects a numeric value. -/
inductive Json where
  | null
  | bool (b : Bool)
  | num (lexeme : String)
  | str (s : String)
  | arr (elems : List Json)
  | obj (members : List (String × Json))
deriving Inhabited

/-- Model of `value[key]` (the `Index<&str>` impl): the member value when
`value` is an object containing `key`, and `Value::Null` otherwise. -/
def Json.index (j : Json) (key : String) : Json :=
  match j with
  | .obj members =>
    match members.find? (fun kv => kv.fst == key) with
    | some kv => kv.snd
    | none => .null
  | _ => .null

/-- Model of `Value::as_str`. -/
def Json.as_str : Json → Option String
  | .str s => some s
  | _ => none

/-- Model of `Value::as_array`. -/
def Json.as_array : Json → Option (List Json)
  | .arr elems => some elems
  | _ => none

/-- Model of `Value::as_object`, returning the member list. -/
def Json.as_object : Json → Option (List (String × Json))
  | .obj members => some members
  | _ => none

/-! ### Model of `serde_json::from_str` (RFC 8259 parser) -/

/-- JSON insignificant whitespace. -/
def jsonWs (c : Char) : Bool :=
  c = ' ' || c = '\t' || c = '\n' || c = '\r'

/-- Drop leading JSON whitespace. -/
def dropWs : List Char → List Char
  | c :: rest => if jsonWs c then dropWs rest else c :: rest
  | [] => []

/-- Split a leading run of ASCII digits from the input. -/
def scanDigits : List Char → List Char × List Char
  | c :: rest =>
    if c.isDigit then
      let (ds, r) := scanDigits rest
      (c :: ds, r)
    else ([], c :: rest)
  | [] => ([], [])

/-- Value of a hexadecimal digit, if any. -/
def hexDigitVal (c : Char) : Option Nat :=
  if c.isDigit then some (c.toNat - 48)
  else if 'a' ≤ c ∧ c ≤ 'f' then some (c.toNat - 97 + 10)
  else if 'A' ≤ c ∧ c ≤ 'F' then some (c.toNat - 65 + 10)
  else none

/-- Decode a two-character escape (everything except `\u`). -/
def escapeChar (c : Char) : Option Char :=
  if c = '"' then some '"'
  else if c = '\\' then some '\\'
  else if c = '/' then some '/'
  else if c = 'b' then some (Char.ofNat 8)
  else if c = 'f' then some (Char.ofNat 12)
  else if c = 'n' then some '\n'
  else if c = 'r' then some '\r'
  else if c = 't' then some '\t'
  else none

/-- Body of a JSON string literal, after the opening quote: ends at the
closing quote, decodes escapes, and rejects raw control characters.
Structural on the input. -/
def jsonStringBody (acc : List Char) : List Char → Option (String × List Char)
  | '"' :: rest => some (⟨acc.reverse⟩, rest)
  | '\\' :: 'u' :: h1 :: h2 :: h3 :: h4 :: rest =>
    (match hexDigitVal h1, hexDigitVal h2, hexDigitVal h3, hexDigitVal h4 with
     | some a, some b, some c, some d =>
       jsonStringBody (Char.ofNat (((a * 16 + b) * 16 + c) * 16 + d) :: acc) rest
     | _, _, _, _ => none)
  | '\\' :: e :: rest =>
    (match escapeChar e with
     | some ch => jsonStringBody (ch :: acc) rest
     | none => none)
  | c :: rest => if c.toNat < 32 then none else jsonStringBody (c :: acc) rest
  | [] => none

/-- A JSON number lexeme: optional minus, an integer part with no leading
zero, then optional fraction and exponent.  Returns the lexeme and the
rest of the input. -/
def jsonNumberLexeme (cs : List Char) : Option (String × List Char) :=
  let (sign, cs1) :=
    match cs with
    | '-' :: r => (['-'], r)
    | _ => (([] : List Char), cs)
  match cs1 with
  | [] => none
  | c :: _ =>
    if ¬ c.isDigit then none
    else
      let (intPart, cs2) := scanDigits cs1
      if intPart.length > 1 ∧ intPart.headI = '0' then none
      else
        let (fracPart, cs3) :=
          match cs2 with
          | '.' :: r =>
            (match scanDigits r with
             | ([], _) => (([] : List Char), ('.' : Char) :: r)
             | (ds, r2) => ('.' :: ds, r2))
          | _ => (([] : List Char), cs2)
        match fracPart, cs2 with
        | [], '.' :: _ => none
        | _, _ =>
          let (expPart, cs4) :=
            match cs3 with
            | e :: r =>
              if e = 'e' ∨ e = 'E' then
                let (sgn, r1) :=
                  match r with
                  | '+' :: r2 => (['+'], r2)
                  | '-' :: r2 => (['-'], r2)
                  | _ => (([] : List Char), r)
                match scanDigits r1 with
                | ([], _) => (([] : List Char), cs3)
                | (ds, r2) => (e :: (sgn ++ ds), r2)
              else (([] : List Char), cs3)
            | [] => (([] : List Char), cs3)
          match cs3, expPart with
          | e :: _, [] =>
            if e = 'e' ∨ e = 'E' then none
            else some (⟨sign ++ intPart ++ fracPart⟩, cs3)
          | _, _ => some (⟨sign ++ intPart ++ fracPart ++ expPart⟩, cs4)

/-- Insert a member into an object, replacing any existing member with the
same key (`serde_json` maps resolve duplicate keys last-wins). -/
def objInsert (members : List (String × Json)) (key : String) (v : Json) :
    List (String × Json) :=
  if members.any (fun kv => kv.fst == key) then
    members.map (fun kv => if kv.fst == key then (key, v) else kv)
  else members ++ [(key, v)]

mutual
/-- Parse one JSON value.  Structural on `fuel`; a fuel of one more than
the input length always suffices since every recursive call consumes at
least one input character. -/
def jsonValue (fuel : Nat) (cs : List Char) : Option (Json × List Char) :=
  match fuel with
  | 0 => none
  | fuel + 1 =>
    match dropWs cs with
    | 'n' :: 'u' :: 'l' :: 'l' :: r => some (.null, r)
    | 't' :: 'r' :: 'u' :: 'e' :: r => some (.bool true, r)
    | 'f' :: 'a' :: 'l' :: 's' :: 'e' :: r => some (.bool false, r)
    | '"' :: r =>
      (match jsonStringBody [] r with
       | some (s, r2) => some (.str s, r2)
       | none => none)
    | '[' :: r =>
      (match dropWs r with
       | ']' :: r2 => some (.arr [], r2)
       | r2 =>
         match jsonElems fuel r2 with
         | some (elems, r3) => some (.arr elems, r3)
         | none => none)
    | c :: r =>
      if c = lbrace then
        match dropWs r with
        | d :: r2 =>
          if d = rbrace then some (.obj [], r2)
          else
            (match jsonMembers fuel [] (d :: r2) with
             | some (members, r3) => some (.obj members, r3)
             | none => none)
        | [] => none
      else if c = '-' ∨ c.isDigit then
        match jsonNumberLexeme (c :: r) with
        | some (lex, r2) => some (.num lex, r2)
        | none => none
      else none
    | [] => none

/-- Parse the elements of a nonempty array (the leading `[` and any
whitespace already consumed), up to and including the closing `]`. -/
def jsonElems (fuel : Nat) (cs : List Char) : Option (List Json × List Char) :=
  match fuel with
  | 0 => none
  | fuel + 1 =>
    match jsonValue fuel cs with
    | none => none
    | some (v, r) =>
      match dropWs r with
      | ',' :: r2 =>
        (match jsonElems fuel r2 with
         | some (vs, r3) => some (v :: vs, r3)
         | none => none)
      | ']' :: r2 => some ([v], r2)
      | _ => none

/-- Parse the members of a nonempty object (the leading brace and any
whitespace already consumed), up to and including the closing brace. -/
def jsonMembers (fuel : Nat) (acc : List (String × Json)) (cs : List Char) :
    Option (List (String × Json) × List Char) :=
  match fuel with
  | 0 => none
  | fuel + 1 =>
    match dropWs cs with
    | '"' :: r =>
      (match jsonStringBody [] r with
       | none => none
       | some (key, r1) =>
         match dropWs r1 with
         | ':' :: r2 =>
           (match jsonValue fuel r2 with
            | none => none
            | some (v, r3) =>
              match dropWs r3 with
              | ',' :: r4 => jsonMembers fuel (objInsert acc key v) r4
              | d :: r4 =>
                if d = rbrace then some (objInsert acc key v, r4) else none
              | [] => none)
         | _ => none)
    | _ => none
end

/-- Model of `serde_json::from_str::<Value>`: parse a complete document,
allowing surrounding whitespace and nothing else. -/
def jsonFromStr (s : String) : Option Json :=
  match jsonValue (s.toList.length + 1) s.toList with
  | some (v, rest) =>
    (match dropWs rest with
     | [] => some v
     | _ :: _ => none)
  | none => none

/-! ### Model of `handlebars` template rendering (third-party crate) -/

/-- HTML escaping applied by handlebars to every
`\x7b\x7bvariable\x7d\x7d` substitution (the default escape function). -/
def htmlEscapeChar (c : Char) : List Char :=
  if c = '<' then "&lt;".toList
  else if c = '>' then "&gt;".toList
  else if c = '"' then "&quot;".toList
  else if c = '&' then "&amp;".toList
  else if c = '\'' then "&#x27;".toList
  else if c = Char.ofNat 96 then "&#x60;".toList
  else if c = '=' then "&#x3d;".toList
  else [c]

/-- HTML-escape a string. -/
def htmlEscape (s : String) : String := ⟨(s.toList.map htmlEscapeChar).flatten⟩

/-- Look a variable up in the render data; handlebars (non-strict, the
default) renders a missing variable as the empty string. -/
def hbLookup (vars : List (String × String)) (name : String) : String :=
  match vars.find? (fun kv => kv.fst == name) with
  | some kv => kv.snd
  | none => ""

/-- Render a template: literal text is copied, `\x7b\x7bname\x7d\x7d` is
replaced by the escaped value of `name`, an unterminated
`\x7b\x7b` is a render error.  Structural on `fuel`; one more than the
template length suffices. -/
def hbRenderAux (vars : List (String × String)) :
    Nat → List Char → Option (List Char)
  | 0, _ => none
  | _, [] => some []
  | fuel + 1, c :: rest =>
    if c = lbrace then
      match rest with
      | d :: rest2 =>
        if d = lbrace then
          let name := rest2.takeWhile (fun x => x ≠ rbrace)
          match rest2.dropWhile (fun x => x ≠ rbrace) with
          | e1 :: e2 :: rest3 =>
            if e1 = rbrace ∧ e2 = rbrace then
              match hbRenderAux vars fuel rest3 with
              | some out => some ((htmlEscape (hbLookup vars ⟨name⟩)).toList ++ out)
              | none => none
            else none
          | _ => none
        else
          match hbRenderAux vars fuel (d :: rest2) with
          | some out => some (c :: out)
          | none => none
      | [] => some [c]
    else
      match hbRenderAux vars fuel rest with
      | some out => some (c :: out)
      | none => none

/-- Model of `handlebars::Handlebars::render_template` for the plain
variable templates this crate uses. -/
def render_template (tpl : String) (vars : List (String × String)) :
    Except String String :=
  match hbRenderAux vars (tpl.toList.length + 1) tpl.toList with
  | some out => .ok ⟨out⟩
  | none => .error "Template rendering failed."

/-! ### Model of `semver::Version` (third-party crate) -/

/-- A parsed semantic version.  Pre-release and build metadata are absent:
`get_latest_version` only parses strings made of digits and dots, which
can carry neither. -/
structure Version where
  major : Nat
  minor : Nat
  patch : Nat
deriving DecidableEq, Repr

/-- Numeric value of a digit run (most significant first). -/
def digitsVal (cs : List Char) : Nat :=
  cs.foldl (fun a c => a * 10 + (c.toNat - 48)) 0

/-- A SemVer numeric identifier: one or more ASCII digits, no leading
zero (except `0` itself). -/
def parseNumericIdent (cs : List Char) : Option Nat :=
  match cs with
  | [] => none
  | c :: rest =>
    if ¬ cs.all Char.isDigit then none
    else if c = '0' ∧ rest ≠ [] then none
    else some (digitsVal cs)

/-- Split a character list at every dot. -/
def splitDots : List Char → List (List Char)
  | [] => [[]]
  | c :: rest =>
    match splitDots rest with
    | [] => [[c]]
    | g :: gs => if c = '.' then [] :: g :: gs else (c :: g) :: gs

/-- Model of `semver::Version::parse` on the digit-and-dot strings the
code feeds it: exactly three dot-separated numeric identifiers.
(The crate additionally accepts pre-release and build suffixes, which
cannot occur in a string of digits and dots.) -/
def semverParse (s : String) : Option Version :=
  match splitDots s.toList with
  | [a, b, c] => do
    let major ← parseNumericIdent a
    let minor ← parseNumericIdent b
    let patch ← parseNumericIdent c
    some ⟨major, minor, patch⟩
  | _ => none

/-- Decimal digits of `n`, most significant first (fuelled; `n + 1` is
always enough fuel). -/
def natReprAux : Nat → Nat → List Char → List Char
  | 0, _, acc => acc
  | fuel + 1, n, acc =>
    if n < 10 then Char.ofNat (48 + n % 10) :: acc
    else natReprAux fuel (n / 10) (Char.ofNat (48 + n % 10) :: acc)

/-- The decimal digit characters of `n`, most significant first. -/
def natDigits (n : Nat) : List Char := natReprAux (n + 1) n []

/-- Decimal rendering of a natural number (model of Rust integer
`Display`). -/
def natRepr (n : Nat) : String := ⟨natDigits n⟩

/-- Model of `semver::Version` `Display`: `major.minor.patch`. -/
def Version.render (v : Version) : String :=
  natRepr v.major ++ "." ++ natRepr v.minor ++ "." ++ natRepr v.patch

/-- The `Ord` instance of `semver::Version` on versions without
pre-release: lexicographic on (major, minor, patch). -/
def Version.le (a b : Version) : Bool :=
  if a.major ≠ b.major then a.major < b.major
  else if a.minor ≠ b.minor then a.minor < b.minor
  else a.patch ≤ b.patch

/-- Insert into a `Version.le`-sorted list. -/
def insertVersion (x : Version) : List Version → List Version
  | [] => [x]
  | y :: ys => if x.le y then x :: y :: ys else y :: insertVersion x ys

/-- Model of `Vec::sort` on versions (insertion sort; `Version.le` is a
total order and equal versions are identical, so any sorting algorithm
produces this list). -/
def sortVersions : List Version → List Version
  | [] => []
  | x :: xs => insertVersion x (sortVersions xs)

/-! ### The extension and its data (`PyExtension`, `vouch_lib` records) -/

/-- The `PyExtension` struct. -/
structure PyExtension where
  name_ : String
  registry_host_names_ : List String
  root_url_ : String
  package_url_template_ : String
  registry_human_url_template_ : String
deriving DecidableEq, Repr

/-- `<PyExtension as FromLib>::new`. -/
def PyExtension.new : PyExtension where
  name_ := "py"
  registry_host_names_ := ["pypi.org"]
  root_url_ := "https://pypi.org/pypi"
  package_url_template_ := "https://pypi.org/pypi/\x7b\x7bpackage_name\x7d\x7d/"
  registry_human_url_template_ :=
    "https://pypi.org/pypi/\x7b\x7bpackage_name\x7d\x7d/\x7b\x7bpackage_version\x7d\x7d/"

/-- `Extension::name`. -/
def PyExtension.name (e : PyExtension) : String := e.name_

/-- `Extension::registries`. -/
def PyExtension.registries (e : PyExtension) : List String :=
  e.registry_host_names_

/-- `vouch_lib::extension::RegistryPackageMetadata` (the fields the
source constructs). -/
structure RegistryPackageMetadata where
  registry_host_name : String
  human_url : String
  artifact_url : String
  is_primary : Bool
  package_version : String
deriving DecidableEq, Repr

/-- A dependency record as produced by the pipfile parser
(`vouch_lib::extension::Dependency`: package name and pinned version). -/
structure Dependency where
  name : String
  version : String
deriving DecidableEq, Repr

/-- `vouch_lib::extension::FileDefinedDependencies`.  Paths are lists of
components below the filesystem root. -/
structure FileDefinedDependencies where
  path : List String
  registry_host_name : String
  dependencies : List Dependency
deriving DecidableEq, Repr

/-! ### The resolver (`lib.rs` lines 69–174)

Each HTTP fetch is replaced by a `String` argument holding the response
body the registry returned for that fetch. -/

/-- `get_registry_entry_json` (lines 139–152): render the package query
URL, fetch it (the response body is the `body` argument), and parse the
body as JSON; a parse failure is reported with the raw body attached as
context. -/
def get_registry_entry_json (package_name : String) (body : String) :
    Except String Json := do
  let _url ← render_template
    "https://pypi.org/pypi/\x7b\x7bpackage_name\x7d\x7d/json"
    [("package_name", package_name)]
  match jsonFromStr body with
  | some json => .ok json
  | none => .error ("JSON was not well-formatted:\n" ++ body)

/-- `get_latest_version` (lines 104–120): fetch the registry entry, keep
the release keys made only of numeric characters and dots, parse them as
semantic versions dropping failures, sort, and return the last (maximum)
rendered back to a string.  (`char::is_numeric` also accepts non-ASCII
Unicode numerics; any key containing one fails `semver` parsing, which
accepts ASCII digits only, so restricting the model to ASCII digits
leaves the result unchanged.) -/
def get_latest_version (package_name : String) (body : String) :
    Except String (Option String) := do
  let json ← get_registry_entry_json package_name body
  match (json.index "releases").as_object with
  | none => .error "Failed to find releases JSON section."
  | some releases =>
    let versions :=
      ((releases.map Prod.fst).filter
        (fun v => v.toList.all (fun c => c.isDigit || c = '.'))).filterMap
        semverParse
    let sorted := sortVersions versions
    .ok (sorted.getLast?.map Version.render)

/-- `get_registry_human_url` (lines 122–137): render the configured
template with the package name and version and parse the result as a
URL. -/
def get_registry_human_url (extension : PyExtension)
    (package_name package_version : String) : Except String Url := do
  let human_url ← render_template extension.registry_human_url_template_
    [("package_name", package_name), ("package_version", package_version)]
  match Url.parse human_url with
  | some u => .ok u
  | none => .error "Failed to parse URL."

/-- The release-scanning loop of `get_archive_url` (lines 161–172): walk
the releases in order; fail on any entry whose `python_version` is not a
string; return the parsed `url` of the first entry tagged `source`. -/
def archiveScan : List Json → Except String Url
  | [] => .error "Failed to identify package archive URL."
  | release :: rest =>
    match (release.index "python_version").as_str with
    | none => .error "Failed to parse package version."
    | some python_version =>
      if python_version = "source" then
        match (release.index "url").as_str with
        | none => .error "Failed to parse package archive URL."
        | some u =>
          match Url.parse u with
          | some url => .ok url
          | none => .error "Failed to parse URL."
      else archiveScan rest

/-- `get_archive_url` (lines 154–174). -/
def get_archive_url (registry_entry_json : Json) (package_version : String) :
    Except String Url :=
  match ((registry_entry_json.index "releases").index package_version).as_array with
  | none => .error "Failed to parse releases array."
  | some releases => archiveScan releases

/-- `registries_package_metadata` (lines 69–100).  `latest_body` is the
response body of the fetch made by `get_latest_version` (when no version
was supplied) and `entry_body` that of the later fetch on line 89: the
source fetches twice and never caches. -/
def registries_package_metadata (extension : PyExtension)
    (package_name : String) (package_version : Option String)
    (latest_body entry_body : String) :
    Except String (List RegistryPackageMetadata) := do
  let pv : Option String ←
    match package_version with
    | some v => pure (some v)
    | none => get_latest_version package_name latest_body
  let package_version ←
    match pv with
    | some v => pure v
    | none => Except.error "Failed to find package version."
  let registry_host_name ←
    match extension.registries.head? with
    | some r => pure r
    | none => Except.error "Code error: vector of registry host names is empty."
  let entry_json ← get_registry_entry_json package_name entry_body
  let artifact_url ← get_archive_url entry_json package_version
  let human_url ← get_registry_human_url extension package_name package_version
  pure [{ registry_host_name := registry_host_name
          human_url := human_url.toString
          artifact_url := artifact_url.toString
          is_primary := true
          package_version := package_version }]

/-! ### The dependency file locator (`lib.rs` lines 176–235)

The filesystem is the list of paths of the existing files, each path the
list of its components below the root; every modelled path is absolute
(the `assert!(working_directory.is_absolute())` precondition holds by
construction).  `PathBuf::pop` is `List.dropLast`, and the root `/` is
`[]`. -/

/-- `DependencyFileType` (line 178). -/
inductive DependencyFileType where
  | PipfileLock
deriving DecidableEq, Repr

/-- `DependencyFileType::file_name` (lines 183–188). -/
def DependencyFileType.file_name : DependencyFileType → String
  | .PipfileLock => "Pipfile.lock"

/-- `DependencyFileType::iter()` from the derived `EnumIter`. -/
def DependencyFileType.all : List DependencyFileType := [.PipfileLock]

/-- `DependencyFile` (lines 192–196). -/
structure DependencyFile where
  type : DependencyFileType
  path : List String
deriving DecidableEq, Repr

/-- The body of the walk loop at one level (lines 211–221): the
dependency files found as direct children of `dir`, in
`DependencyFileType::iter()` order; the loop flag `found_dependency_file`
is true exactly when this list is nonempty. -/
def checkLevel (fs : List (List String)) (dir : List String) :
    List DependencyFile :=
  (DependencyFileType.all.filter
    (fun t => fs.contains (dir ++ [t.file_name]))).map
    (fun t => ⟨t, dir ++ [t.file_name]⟩)

/-- The `loop` of `identify_dependency_files` (lines 207–233), fuelled so
the recursion is structural: each iteration either returns, stops at the
root, or pops one component, so a fuel of one more than the component
count makes the zero-fuel case unreachable. -/
def identifyAux (fs : List (List String)) :
    Nat → List String → Option (List DependencyFile)
  | 0, _ => none
  | fuel + 1, dir =>
    let dependency_files := checkLevel fs dir
    if dependency_files.isEmpty then
      if dir = [] then none
      else identifyAux fs fuel dir.dropLast
    else some dependency_files

/-- `identify_dependency_files` (lines 201–235). -/
def identify_dependency_files (fs : List (List String))
    (working_directory : List String) : Option (List DependencyFile) :=
  identifyAux fs (working_directory.length + 1) working_directory

/-- Instrumented copy of the walk that also counts the directory levels
examined (each count unit is one loop iteration, i.e. one existence check
per recognized file type). -/
def identifyAuxCount (fs : List (List String)) :
    Nat → List String → Option (List DependencyFile) × Nat
  | 0, _ => (none, 0)
  | fuel + 1, dir =>
    let dependency_files := checkLevel fs dir
    if dependency_files.isEmpty then
      if dir = [] then (none, 1)
      else
        let rn := identifyAuxCount fs fuel dir.dropLast
        (rn.1, rn.2 + 1)
    else (some dependency_files, 1)

/-- `identify_dependency_files` with the level count. -/
def identify_dependency_files_count (fs : List (List String))
    (working_directory : List String) :
    Option (List DependencyFile) × Nat :=
  identifyAuxCount fs (working_directory.length + 1) working_directory

/-- The ancestor chain of a directory, nearest first: the directory
itself, then each parent up to and including the root `[]` (fuelled like
the walk itself; `dir.length + 1` is always enough fuel). -/
def ancestorLevelsAux : Nat → List String → List (List String)
  | 0, _ => []
  | fuel + 1, dir =>
    dir :: (if dir = [] then [] else ancestorLevelsAux fuel dir.dropLast)

/-- The directories the upward walk can visit, nearest first: the start,
its parent, and so on up to and including the root. -/
def ancestorLevels (dir : List String) : List (List String) :=
  ancestorLevelsAux (dir.length + 1) dir

/-- Modelled from the spec: `pipfile::get_registry_host_name` lives in
`src/pipfile.rs`, which is not among the given sources; per §4.2 the one
supported lockfile type always targets the PyPI registry. -/
def pipfile_registry_host_name : String := "pypi.org"

/-- `identify_file_defined_dependencies` (lines 38–67).  The parser for
`Pipfile.lock` files (`pipfile::get_dependencies`, in the missing
`src/pipfile.rs`) is passed as an oracle: the claims touching this
function only exercise the locator, which is fully embedded. -/
def identify_file_defined_dependencies (fs : List (List String))
    (pipfile_get_dependencies : List String → Except String (List Dependency))
    (working_directory : List String) :
    Except String (List FileDefinedDependencies) := do
  match identify_dependency_files fs working_directory with
  | none => pure []
  | some dependency_files =>
    dependency_files.mapM (fun dependency_file => do
      match dependency_file.type with
      | .PipfileLock =>
        let dependencies ← pipfile_get_dependencies dependency_file.path
        pure { path := dependency_file.path
               registry_host_name := pipfile_registry_host_name
               dependencies := dependencies })

/-! ### Concrete registry documents used as test inputs -/

/-- The §8 version-selection candidate set, as the registry metadata
document whose `releases` object is keyed by those five strings. -/
def candidatesBody : String :=
  "\x7b\"releases\": \x7b\"1.0.0\": [], \"1.2.0\": [], \"1.2.0rc1\": [], \"abc\": [], \"2.0\": []\x7d\x7d"

/-- The §8 version-selection failure candidate set `[\"rc1\", \"beta\", \"\"]`
as a registry metadata document. -/
def noCandidatesBody : String :=
  "\x7b\"releases\": \x7b\"rc1\": [], \"beta\": [], \"\": []\x7d\x7d"

/-- A registry metadata document with the single published version
`1.0.0`. -/
def singleVersionBody : String :=
  "\x7b\"releases\": \x7b\"1.0.0\": []\x7d\x7d"

/-! ## Lemmas -/

/-! ### The locator walk -/

/-- The walk agrees with scanning the ancestor chain for the first level
whose check is nonempty, at every sufficient fuel. -/
theorem identifyAux_eq_findSome (fs : List (List String)) :
    ∀ (fuel : Nat) (dir : List String), dir.length < fuel →
    identifyAux fs fuel dir =
      (ancestorLevelsAux fuel dir).findSome? (fun lvl =>
        if (checkLevel fs lvl).isEmpty then none else some (checkLevel fs lvl)) := by
  intro fuel
  induction fuel with
  | zero => intro dir h; omega
  | succ fuel ih =>
    intro dir h
    simp only [identifyAux, ancestorLevelsAux, List.findSome?_cons]
    by_cases hempty : (checkLevel fs dir).isEmpty
    · simp only [hempty, if_true]
      by_cases hnil : dir = []
      · simp [hnil]
      · have hlen : dir.dropLast.length < fuel := by
          have := List.length_dropLast dir
          have : 0 < dir.length := List.length_pos.mpr hnil
          simp [List.length_dropLast]; omega
        simp [hnil, ih dir.dropLast hlen]
    · simp [hempty]

/-- The instrumented walk computes the same result as the plain walk. -/
theorem identifyAuxCount_fst (fs : List (List String)) :
    ∀ (fuel : Nat) (dir : List String),
    (identifyAuxCount fs fuel dir).1 = identifyAux fs fuel dir := by
  intro fuel
  induction fuel with
  | zero => intro dir; rfl
  | succ fuel ih =>
    intro dir
    simp only [identifyAuxCount, identifyAux]
    by_cases hempty : (checkLevel fs dir).isEmpty
    · rw [List.isEmpty_iff] at hempty
      by_cases hnil : dir = []
      · subst hnil; simp [hempty]
      · simp [hempty, hnil, ih]
    · simp [hempty]

/-- The walk examines at most one level per path component plus the
root. -/
theorem identifyAuxCount_le (fs : List (List String)) :
    ∀ (fuel : Nat) (dir : List String),
    (identifyAuxCount fs fuel dir).2 ≤ dir.length + 1 := by
  intro fuel
  induction fuel with
  | zero => intro dir; simp [identifyAuxCount]
  | succ fuel ih =>
    intro dir
    simp only [identifyAuxCount]
    by_cases hempty : (checkLevel fs dir).isEmpty
    · by_cases hnil : dir = []
      · rw [List.isEmpty_iff] at hempty
        subst hnil
        simp [hempty]
      · have hbound := ih dir.dropLast
        have hlen : dir.dropLast.length = dir.length - 1 := List.length_dropLast dir
        have hpos : 0 < dir.length := List.length_pos.mpr hnil
        simp only [hempty, if_true, hnil, if_false]
        simp only [List.isEmpty_iff] at *
        omega
    · simp [hempty]

/-! ### Decimal rendering round-trips through SemVer parsing -/

/-- The accumulator of `natReprAux` is a suffix of its output. -/
theorem natReprAux_acc (fuel : Nat) : ∀ (n : Nat) (acc : List Char),
    natReprAux fuel n acc = natReprAux fuel n [] ++ acc := by
  induction fuel with
  | zero => intro n acc; simp [natReprAux]
  | succ fuel ih =>
    intro n acc
    by_cases h : n < 10
    · simp [natReprAux, h]
    · simp only [natReprAux, h, if_false]
      rw [ih (n / 10) (Char.ofNat (48 + n % 10) :: acc),
        ih (n / 10) [Char.ofNat (48 + n % 10)]]
      simp

/-- Any sufficient fuel gives the same digits. -/
theorem natReprAux_fuel : ∀ (fuel₁ fuel₂ n : Nat) (acc : List Char),
    n < fuel₁ → n < fuel₂ →
    natReprAux fuel₁ n acc = natReprAux fuel₂ n acc := by
  intro fuel₁
  induction fuel₁ with
  | zero => intro fuel₂ n acc h1 _; omega
  | succ f ih =>
    intro fuel₂ n acc h1 h2
    cases fuel₂ with
    | zero => omega
    | succ f2 =>
      by_cases h : n < 10
      · simp [natReprAux, h]
      · simp only [natReprAux, h, if_false]
        have hlt : n / 10 < n := Nat.div_lt_self (by omega) (by omega)
        exact ih f2 (n / 10) _ (by omega) (by omega)

/-- A number below ten renders as its single digit character. -/
theorem natDigits_lt {n : Nat} (h : n < 10) :
    natDigits n = [Char.ofNat (48 + n % 10)] := by
  simp [natDigits, natReprAux, h]

/-- A number of ten or more renders as its quotient followed by its last
digit. -/
theorem natDigits_ge {n : Nat} (h : 10 ≤ n) :
    natDigits n = natDigits (n / 10) ++ [Char.ofNat (48 + n % 10)] := by
  have hlt : n / 10 < n := Nat.div_lt_self (by omega) (by omega)
  calc natDigits n = natReprAux n (n / 10) [Char.ofNat (48 + n % 10)] := by
        simp [natDigits, natReprAux, Nat.not_lt.mpr h]
    _ = natReprAux (n / 10 + 1) (n / 10) [Char.ofNat (48 + n % 10)] :=
        natReprAux_fuel n (n / 10 + 1) (n / 10) _ (by omega) (by omega)
    _ = natDigits (n / 10) ++ [Char.ofNat (48 + n % 10)] :=
        natReprAux_acc _ _ _

/-- The code point of a digit character. -/
theorem digitChar_toNat {k : Nat} (h : k < 10) :
    (Char.ofNat (48 + k)).toNat = 48 + k := by
  interval_cases k <;> decide

/-- Digit characters satisfy `Char.isDigit`. -/
theorem digitChar_isDigit {k : Nat} (h : k < 10) :
    (Char.ofNat (48 + k)).isDigit = true := by
  interval_cases k <;> decide

/-- The only digit character equal to `0` is the digit of zero. -/
theorem digitChar_eq_zero_iff {k : Nat} (h : k < 10) :
    Char.ofNat (48 + k) = '0' ↔ k = 0 := by
  interval_cases k <;> simp_all

/-- Every character of a decimal rendering is a digit. -/
theorem natDigits_all_digit : ∀ n, (natDigits n).all Char.isDigit = true := by
  intro n
  induction n using Nat.strong_induction_on with
  | _ n ih =>
    by_cases h : n < 10
    · rw [natDigits_lt h]
      simp [digitChar_isDigit (show n % 10 < 10 by omega)]
    · rw [natDigits_ge (by omega)]
      simp [List.all_append, ih (n / 10) (Nat.div_lt_self (by omega) (by omega)),
        digitChar_isDigit (show n % 10 < 10 by omega)]

/-- Decimal renderings are nonempty. -/
theorem natDigits_ne_nil (n : Nat) : natDigits n ≠ [] := by
  by_cases h : n < 10
  · rw [natDigits_lt h]; simp
  · rw [natDigits_ge (by omega)]; simp

/-- A decimal rendering starts with `0` only for zero itself (no leading
zeros). -/
theorem natDigits_head_zero : ∀ n, (natDigits n).head? = some '0' → n = 0 := by
  intro n
  induction n using Nat.strong_induction_on with
  | _ n ih =>
    intro hh
    by_cases h : n < 10
    · rw [natDigits_lt h] at hh
      simp only [List.head?_cons, Option.some.injEq] at hh
      have := (digitChar_eq_zero_iff (show n % 10 < 10 by omega)).mp hh
      omega
    · rw [natDigits_ge (by omega)] at hh
      cases hcase : natDigits (n / 10) with
      | nil => exact absurd hcase (natDigits_ne_nil _)
      | cons c cs =>
        rw [hcase] at hh
        simp only [List.cons_append, List.head?_cons, Option.some.injEq] at hh
        have hq : n / 10 = 0 := by
          apply ih (n / 10) (Nat.div_lt_self (by omega) (by omega))
          rw [hcase, hh, List.head?_cons]
        omega

/-- Folding one more digit multiplies the accumulated value by ten. -/
theorem digitsVal_append_singleton (xs : List Char) (c : Char) :
    digitsVal (xs ++ [c]) = digitsVal xs * 10 + (c.toNat - 48) := by
  simp [digitsVal, List.foldl_append]

/-- The value of a decimal rendering is the number itself. -/
theorem digitsVal_natDigits : ∀ n, digitsVal (natDigits n) = n := by
  intro n
  induction n using Nat.strong_induction_on with
  | _ n ih =>
    by_cases h : n < 10
    · rw [natDigits_lt h]
      simp [digitsVal, digitChar_toNat (show n % 10 < 10 by omega)]
      omega
    · rw [natDigits_ge (by omega), digitsVal_append_singleton,
        ih (n / 10) (Nat.div_lt_self (by omega) (by omega)),
        digitChar_toNat (show n % 10 < 10 by omega)]
      omega

/-- SemVer numeric identifier parsing inverts decimal rendering. -/
theorem parseNumericIdent_natDigits (n : Nat) :
    parseNumericIdent (natDigits n) = some n := by
  cases hcase : natDigits n with
  | nil => exact absurd hcase (natDigits_ne_nil n)
  | cons c rest =>
    have hall : ((c :: rest).all Char.isDigit) = true := by
      rw [← hcase]; exact natDigits_all_digit n
    have hlead : ¬ (c = '0' ∧ rest ≠ []) := by
      rintro ⟨hc, hr⟩
      have hzero : n = 0 := by
        apply natDigits_head_zero n
        rw [hcase, hc, List.head?_cons]
      rw [hzero] at hcase
      have : natDigits 0 = ['0'] := rfl
      rw [this] at hcase
      have := List.cons.inj hcase.symm
      exact hr this.2
    simp only [parseNumericIdent]
    rw [if_neg (not_not_intro hall), if_neg hlead, ← hcase,
      digitsVal_natDigits]

/-- Decimal renderings contain no dot. -/
theorem natDigits_no_dot (n : Nat) : ∀ c ∈ natDigits n, c ≠ '.' := by
  intro c hc heq
  have hall := natDigits_all_digit n
  rw [List.all_eq_true] at hall
  have hd := hall c hc
  rw [heq] at hd
  exact absurd hd (by decide)

/-- `splitDots` always yields at least one group. -/
theorem splitDots_ne_nil : ∀ cs, splitDots cs ≠ [] := by
  intro cs
  cases cs with
  | nil => simp [splitDots]
  | cons c rest =>
    simp only [splitDots]
    cases h : splitDots rest with
    | nil => simp
    | cons g gs => by_cases hc : c = '.' <;> simp [hc]

/-- A dot-free list is a single group. -/
theorem splitDots_nodot (xs : List Char) (h : ∀ c ∈ xs, c ≠ '.') :
    splitDots xs = [xs] := by
  induction xs with
  | nil => rfl
  | cons c rest ih =>
    have hrest : splitDots rest = [rest] :=
      ih (fun d hd => h d (List.mem_cons_of_mem _ hd))
    simp only [splitDots, hrest]
    have hc : c ≠ '.' := h c (List.mem_cons_self _ _)
    simp [hc]

/-- Prepending a dot-free run extends the first group. -/
theorem splitDots_append (xs ys : List Char) (g : List Char)
    (gs : List (List Char)) (hys : splitDots ys = g :: gs)
    (h : ∀ c ∈ xs, c ≠ '.') :
    splitDots (xs ++ ys) = (xs ++ g) :: gs := by
  induction xs with
  | nil => simpa using hys
  | cons c rest ih =>
    have hrest := ih (fun d hd => h d (List.mem_cons_of_mem _ hd))
    have hc : c ≠ '.' := h c (List.mem_cons_self _ _)
    rw [List.cons_append]
    simp only [splitDots]
    rw [hrest]
    simp [hc]

/-- A leading dot opens an empty group. -/
theorem splitDots_dot (ys : List Char) :
    splitDots ('.' :: ys) = [] :: splitDots ys := by
  simp only [splitDots]
  cases h : splitDots ys with
  | nil => exact absurd h (splitDots_ne_nil ys)
  | cons g gs => simp

/-- The characters of a rendered version. -/
theorem render_toList (v : Version) :
    (Version.render v).toList =
      natDigits v.major ++ '.' ::
        (natDigits v.minor ++ '.' :: natDigits v.patch) := by
  simp [Version.render, natRepr, String.toList]

/-- `semver` parsing inverts version rendering: the canonical
`major.minor.patch` string parses back to the same version. -/
theorem semverParse_render (v : Version) :
    semverParse (Version.render v) = some v := by
  have hpatch : splitDots (natDigits v.patch) = [natDigits v.patch] :=
    splitDots_nodot _ (natDigits_no_dot _)
  have h2 : splitDots ('.' :: natDigits v.patch) = [] :: [natDigits v.patch] := by
    rw [splitDots_dot, hpatch]
  have h3 := splitDots_append (natDigits v.minor) _ _ _ h2 (natDigits_no_dot _)
  have h4 : splitDots ('.' :: (natDigits v.minor ++ '.' :: natDigits v.patch)) =
      [] :: ((natDigits v.minor ++ []) :: [natDigits v.patch]) := by
    rw [splitDots_dot, h3]
  have h5 := splitDots_append (natDigits v.major) _ _ _ h4 (natDigits_no_dot _)
  have h1 : splitDots (Version.render v).toList =
      [natDigits v.major, natDigits v.minor, natDigits v.patch] := by
    rw [render_toList]
    simpa using h5
  simp only [semverParse, h1, parseNumericIdent_natDigits, Option.bind_some]
  rfl

/-! ### Dissection of the resolver pipeline -/

/-- `get_registry_entry_json` is exactly JSON parsing of the response
body, with the raw body attached to the parse-failure error. -/
theorem get_registry_entry_json_eq (pn body : String) :
    get_registry_entry_json pn body =
      match jsonFromStr body with
      | some j => Except.ok j
      | none => Except.error ("JSON was not well-formatted:\n" ++ body) := rfl

/-- `get_latest_version` when the body parses and `releases` is an
object: the last element of the sorted surviving versions, rendered. -/
theorem get_latest_version_ok (pn body : String) (json : Json)
    (releases : List (String × Json))
    (hj : jsonFromStr body = some json)
    (hrel : (json.index "releases").as_object = some releases) :
    get_latest_version pn body =
      Except.ok ((sortVersions (((releases.map Prod.fst).filter
        (fun v => v.toList.all (fun c => c.isDigit || c = '.'))).filterMap
        semverParse)).getLast?.map Version.render) := by
  simp [get_latest_version, get_registry_entry_json_eq, hj, hrel,
    Bind.bind, Except.bind]

/-- `get_latest_version` when the body is not valid JSON. -/
theorem get_latest_version_err_parse (pn body : String)
    (hj : jsonFromStr body = none) :
    get_latest_version pn body =
      Except.error ("JSON was not well-formatted:\n" ++ body) := by
  simp [get_latest_version, get_registry_entry_json_eq, hj,
    Bind.bind, Except.bind]

/-- `get_latest_version` when the document has no `releases` object. -/
theorem get_latest_version_err_releases (pn body : String) (json : Json)
    (hj : jsonFromStr body = some json)
    (hrel : (json.index "releases").as_object = none) :
    get_latest_version pn body =
      Except.error "Failed to find releases JSON section." := by
  simp [get_latest_version, get_registry_entry_json_eq, hj, hrel,
    Bind.bind, Except.bind]

/-! ## Claim theorems -/

/-- C3: for every absolute starting directory, `identify_dependency_files`
returns exactly the recognized dependency files that are direct children
of the nearest ancestor level (the start included) whose check is
nonempty — equivalently, it is the first nonempty `checkLevel` along the
ancestor chain, nearest first.  This single equation rules out continuing
past the first matching level, descending below the start (only ancestor
levels are scanned), and merging files of different levels (the result is
the check of one single level verbatim); `none` means every level up to the root was
empty. -/
theorem claim_C3 (fs : List (List String)) (wd : List String) :
    identify_dependency_files fs wd =
      (ancestorLevels wd).findSome? (fun lvl =>
        if (checkLevel fs lvl).isEmpty then none
        else some (checkLevel fs lvl)) :=
  identifyAux_eq_findSome fs (wd.length + 1) wd (Nat.lt_succ_self _)

/-- C4: started at the filesystem root `/` (the empty component list)
with no recognized dependency file there, the locator returns `none`
having examined exactly one directory level (each level is one existence
check per recognized file type); and in general the walk terminates,
examining at most one level per path component plus the root, with the
instrumented walk agreeing with the plain one. -/
theorem claim_C4 (fs : List (List String)) (h : checkLevel fs [] = []) :
    identify_dependency_files fs [] = none ∧
    identify_dependency_files_count fs [] = (none, 1) ∧
    (∀ wd : List String,
      (identify_dependency_files_count fs wd).2 ≤ wd.length + 1 ∧
      (identify_dependency_files_count fs wd).1 =
        identify_dependency_files fs wd) := by
  refine ⟨?_, ?_,
    fun wd => ⟨identifyAuxCount_le fs _ wd, identifyAuxCount_fst fs _ wd⟩⟩
  · simp [identify_dependency_files, identifyAux, h]
  · simp [identify_dependency_files_count, identifyAuxCount, h]

/-- Witness for C4 at the empty filesystem. -/
theorem claim_C4_witness :
    checkLevel [] [] = [] ∧
    identify_dependency_files [] [] = none ∧
    identify_dependency_files_count [] [] = (none, 1) :=
  ⟨rfl, (claim_C4 [] rfl).1, (claim_C4 [] rfl).2.1⟩

/-- C7: when no recognized dependency file exists at any ancestor level
of the working directory (the root included),
`identify_file_defined_dependencies` succeeds with the empty list rather
than failing. -/
theorem claim_C7 (fs : List (List String))
    (pipfile_get_dependencies : List String → Except String (List Dependency))
    (wd : List String)
    (h : ∀ lvl ∈ ancestorLevels wd, checkLevel fs lvl = []) :
    identify_file_defined_dependencies fs pipfile_get_dependencies wd =
      Except.ok [] := by
  have hid : identify_dependency_files fs wd = none := by
    have heq := identifyAux_eq_findSome fs (wd.length + 1) wd (Nat.lt_succ_self _)
    have hnone : (ancestorLevels wd).findSome? (fun lvl =>
        if (checkLevel fs lvl).isEmpty then none
        else some (checkLevel fs lvl)) = none :=
      List.findSome?_eq_none_iff.mpr (fun lvl hlvl => by simp [h lvl hlvl])
    exact heq.trans hnone
  simp [identify_file_defined_dependencies, hid, pure, Except.pure]

/-- Witness for C7: empty filesystem, start one level below the root. -/
theorem claim_C7_witness :
    (∀ lvl ∈ ancestorLevels ["x"], checkLevel [] lvl = []) ∧
    identify_file_defined_dependencies [] (fun _ => Except.ok []) ["x"] =
      Except.ok [] :=
  ⟨by decide, claim_C7 [] (fun _ => Except.ok []) ["x"] (by decide)⟩

/-- C2: a release list holding one platform-specific binary entry (its
`python_version` tag a string other than `source`) and one source
distribution entry (tagged `source`, with a parseable download URL)
makes `get_archive_url` return the URL of the source entry, in either order
of the two entries. -/
theorem claim_C2 (version pv u : String) (b s : Json) (url : Url)
    (hb : (b.index "python_version").as_str = some pv)
    (hpv : pv ≠ "source")
    (hs : (s.index "python_version").as_str = some "source")
    (hu : (s.index "url").as_str = some u)
    (hurl : Url.parse u = some url) :
    get_archive_url
      (Json.obj [("releases", Json.obj [(version, Json.arr [b, s])])])
      version = Except.ok url ∧
    get_archive_url
      (Json.obj [("releases", Json.obj [(version, Json.arr [s, b])])])
      version = Except.ok url := by
  constructor
  · have hstep : get_archive_url
        (Json.obj [("releases", Json.obj [(version, Json.arr [b, s])])])
        version = archiveScan [b, s] := by
      simp [get_archive_url, Json.index, List.find?, Json.as_array]
    rw [hstep]
    simp [archiveScan, hb, hpv, hs, hu, hurl]
  · have hstep : get_archive_url
        (Json.obj [("releases", Json.obj [(version, Json.arr [s, b])])])
        version = archiveScan [s, b] := by
      simp [get_archive_url, Json.index, List.find?, Json.as_array]
    rw [hstep]
    simp [archiveScan, hs, hu, hurl]

/-- Witness for C2 with a wheel entry and an sdist entry. -/
theorem claim_C2_witness :
    ((Json.obj [("python_version", Json.str "py3"),
       ("url", Json.str "https://files.pythonhosted.org/a.whl")]).index
        "python_version").as_str = some "py3" ∧
    ((Json.obj [("python_version", Json.str "source"),
       ("url", Json.str "https://files.pythonhosted.org/a.tar.gz")]).index
        "url").as_str = some "https://files.pythonhosted.org/a.tar.gz" ∧
    get_archive_url
      (Json.obj [("releases", Json.obj [("1.0.0",
        Json.arr [Json.obj [("python_version", Json.str "py3"),
            ("url", Json.str "https://files.pythonhosted.org/a.whl")],
          Json.obj [("python_version", Json.str "source"),
            ("url", Json.str "https://files.pythonhosted.org/a.tar.gz")]])])])
      "1.0.0" = Except.ok ⟨"https://files.pythonhosted.org/a.tar.gz"⟩ :=
  ⟨rfl, rfl,
    (claim_C2 "1.0.0" "py3" "https://files.pythonhosted.org/a.tar.gz"
      (Json.obj [("python_version", Json.str "py3"),
        ("url", Json.str "https://files.pythonhosted.org/a.whl")])
      (Json.obj [("python_version", Json.str "source"),
        ("url", Json.str "https://files.pythonhosted.org/a.tar.gz")])
      ⟨"https://files.pythonhosted.org/a.tar.gz"⟩
      rfl (by decide) rfl rfl rfl).1⟩

/-- C10: `get_archive_url` scans the release list in order and fails with
the tag-parse error at the first entry whose `python_version` is missing
or not a string, even when a later entry of the same list is tagged
`source`; that source entry is never returned. -/
theorem claim_C10 (version : String) (m s : Json)
    (hm : (m.index "python_version").as_str = none)
    (_hs : (s.index "python_version").as_str = some "source") :
    get_archive_url
      (Json.obj [("releases", Json.obj [(version, Json.arr [m, s])])])
      version = Except.error "Failed to parse package version." := by
  have hstep : get_archive_url
      (Json.obj [("releases", Json.obj [(version, Json.arr [m, s])])])
      version = archiveScan [m, s] := by
    simp [get_archive_url, Json.index, List.find?, Json.as_array]
  rw [hstep]
  simp [archiveScan, hm]

/-- Witness for C10: malformed sibling before a valid sdist entry. -/
theorem claim_C10_witness :
    ((Json.obj [("url", Json.str "https://x.whl")]).index
      "python_version").as_str = none ∧
    get_archive_url
      (Json.obj [("releases", Json.obj [("1.0.0",
        Json.arr [Json.obj [("url", Json.str "https://x.whl")],
          Json.obj [("python_version", Json.str "source"),
            ("url", Json.str "https://a.tar.gz")]])])])
      "1.0.0" = Except.error "Failed to parse package version." :=
  ⟨rfl,
    claim_C10 "1.0.0" (Json.obj [("url", Json.str "https://x.whl")])
      (Json.obj [("python_version", Json.str "source"),
        ("url", Json.str "https://a.tar.gz")]) rfl rfl⟩

/-- C8: rendering the configured human-URL template for package `numpy`
and version `1.18.5` yields exactly
`https://pypi.org/pypi/numpy/1.18.5/`, and that string parses as a
syntactically valid URL. -/
theorem claim_C8 :
    get_registry_human_url PyExtension.new "numpy" "1.18.5" =
      Except.ok ⟨"https://pypi.org/pypi/numpy/1.18.5/"⟩ ∧
    Url.parse "https://pypi.org/pypi/numpy/1.18.5/" =
      some ⟨"https://pypi.org/pypi/numpy/1.18.5/"⟩ :=
  ⟨rfl, rfl⟩

/-- C5: whenever the response body for a package query is not valid
JSON, `get_registry_entry_json` fails with the malformed-response error,
and the error text carries the raw body verbatim (as a suffix after the
fixed context line). -/
theorem claim_C5 (package_name body : String)
    (h : jsonFromStr body = none) :
    get_registry_entry_json package_name body =
      Except.error ("JSON was not well-formatted:\n" ++ body) ∧
    ∃ context, "JSON was not well-formatted:\n" ++ body = context ++ body := by
  refine ⟨?_, "JSON was not well-formatted:\n", rfl⟩
  rw [get_registry_entry_json_eq, h]

/-- Witness for C5 at a non-JSON body. -/
theorem claim_C5_witness :
    jsonFromStr "not json" = none ∧
    (get_registry_entry_json "numpy" "not json" =
      Except.error ("JSON was not well-formatted:\n" ++ "not json") ∧
    ∃ context, "JSON was not well-formatted:\n" ++ "not json" =
      context ++ "not json") :=
  ⟨rfl, claim_C5 "numpy" "not json" rfl⟩

/-- C6: when no version is supplied and every published version string of
the fetched document fails the eligibility filters (the digit-and-dot
character filter, then SemVer parsing), `registries_package_metadata`
fails with the version-not-found error instead of returning metadata. -/
theorem claim_C6 (ext : PyExtension) (package_name body1 body2 : String)
    (j : Json) (members : List (String × Json))
    (hparse : jsonFromStr body1 = some j)
    (hrel : (j.index "releases").as_object = some members)
    (hfail : ∀ key ∈ members.map Prod.fst,
      key.toList.all (fun c => c.isDigit || c = '.') = false ∨
        semverParse key = none) :
    registries_package_metadata ext package_name none body1 body2 =
      Except.error "Failed to find package version." := by
  have hvers : ((members.map Prod.fst).filter
      (fun v => v.toList.all (fun c => c.isDigit || c = '.'))).filterMap
      semverParse = [] := by
    rw [List.filterMap_eq_nil_iff]
    intro a ha
    rw [List.mem_filter] at ha
    rcases hfail a ha.1 with hf | hf
    · rw [ha.2] at hf; cases hf
    · exact hf
  have hlv : get_latest_version package_name body1 = Except.ok none := by
    rw [get_latest_version_ok package_name body1 j members hparse hrel, hvers]
    simp [sortVersions]
  simp [registries_package_metadata, hlv, Bind.bind, Except.bind]

/-- Witness for C6 at the §8 failure candidate set. -/
theorem claim_C6_witness :
    jsonFromStr noCandidatesBody =
      some (Json.obj [("releases", Json.obj
        [("rc1", Json.arr []), ("beta", Json.arr []), ("", Json.arr [])])]) ∧
    registries_package_metadata PyExtension.new "package" none
      noCandidatesBody noCandidatesBody =
      Except.error "Failed to find package version." :=
  ⟨rfl, claim_C6 PyExtension.new "package" noCandidatesBody noCandidatesBody
    (Json.obj [("releases", Json.obj
      [("rc1", Json.arr []), ("beta", Json.arr []), ("", Json.arr [])])])
    [("rc1", Json.arr []), ("beta", Json.arr []), ("", Json.arr [])]
    rfl rfl (by decide)⟩

/-- C9: every version string that latest-version resolution can return is
the canonical rendering `major.minor.patch` of a parsed semantic version
(three ASCII-digit components, no leading zeros), and is made of ASCII
digits and dots only, so strings with fewer components (`2.0`, `1`),
leading zeros (`01.0.0`), or non-ASCII numerals (`١.٠.٠`) can never be
selected. -/
theorem claim_C9 (package_name body v : String)
    (h : get_latest_version package_name body = Except.ok (some v)) :
    (∃ ver : Version, semverParse v = some ver ∧ v = Version.render ver) ∧
    v.toList.all (fun c => c.isDigit || c = '.') = true ∧
    v ≠ "2.0" ∧ v ≠ "1" ∧ v ≠ "01.0.0" ∧ v ≠ "١.٠.٠" := by
  cases hj : jsonFromStr body with
  | none => rw [get_latest_version_err_parse package_name body hj] at h; cases h
  | some json =>
    cases hrel : (json.index "releases").as_object with
    | none =>
      rw [get_latest_version_err_releases package_name body json hj hrel] at h
      cases h
    | some releases =>
      rw [get_latest_version_ok package_name body json releases hj hrel] at h
      have h2 := Except.ok.inj h
      cases hlast : (sortVersions (((releases.map Prod.fst).filter
          (fun v => v.toList.all (fun c => c.isDigit || c = '.'))).filterMap
          semverParse)).getLast? with
      | none => rw [hlast] at h2; cases h2
      | some ver =>
        rw [hlast] at h2
        have hren : Version.render ver = v := Option.some.inj h2
        have hparse : semverParse v = some ver := hren ▸ semverParse_render ver
        have hdig : ∀ k : Nat,
            (natDigits k).all (fun c => c.isDigit || c = '.') = true := by
          intro k
          rw [List.all_eq_true]
          intro c hc
          have hall := natDigits_all_digit k
          rw [List.all_eq_true] at hall
          simp [hall c hc]
        have hchars : v.toList.all (fun c => c.isDigit || c = '.') = true := by
          rw [← hren]
          have hform := render_toList ver
          rw [hform]
          simp [List.all_append, List.all_cons, hdig]
        refine ⟨⟨ver, hparse, hren.symm⟩, hchars, ?_, ?_, ?_, ?_⟩
        · intro hv
          rw [hv] at hparse
          have hno : semverParse "2.0" = none := by decide
          rw [hno] at hparse
          cases hparse
        · intro hv
          rw [hv] at hparse
          have hno : semverParse "1" = none := by decide
          rw [hno] at hparse
          cases hparse
        · intro hv
          rw [hv] at hparse
          have hno : semverParse "01.0.0" = none := by decide
          rw [hno] at hparse
          cases hparse
        · intro hv
          rw [hv] at hparse
          have hno : semverParse "١.٠.٠" = none := by decide
          rw [hno] at hparse
          cases hparse

/-- Witness for C9 at a single-version registry document. -/
theorem claim_C9_witness :
    get_latest_version "numpy" singleVersionBody = Except.ok (some "1.0.0") ∧
    ((∃ ver : Version, semverParse "1.0.0" = some ver ∧
        "1.0.0" = Version.render ver) ∧
      "1.0.0".toList.all (fun c => c.isDigit || c = '.') = true ∧
      "1.0.0" ≠ "2.0" ∧ "1.0.0" ≠ "1" ∧ "1.0.0" ≠ "01.0.0" ∧
      "1.0.0" ≠ "١.٠.٠") :=
  ⟨rfl, claim_C9 "numpy" singleVersionBody "1.0.0" rfl⟩

/-- C1 (counterexample): on the §8 candidate set the latest version the
code selects is not `2.0`. -/
theorem claim_C1_counterexample :
    get_latest_version "numpy" candidatesBody ≠ Except.ok (some "2.0") := by
  have heval : get_latest_version "numpy" candidatesBody =
      Except.ok (some "1.2.0") := rfl
  rw [heval]
  intro hc
  exact absurd (Option.some.inj (Except.ok.inj hc)) (by decide)

/-- C1 (amended): on the §8 candidate set the resolver selects `1.2.0`:
strings with non-digit, non-separator characters are excluded before
parsing, and `2.0` — although it passes that character filter — fails
semantic-version parsing (it lacks a patch component), so the maximum of
the surviving versions `1.0.0` and `1.2.0` is chosen. -/
theorem claim_C1 :
    get_latest_version "numpy" candidatesBody = Except.ok (some "1.2.0") ∧
    "2.0".toList.all (fun c => c.isDigit || c = '.') = true ∧
    semverParse "2.0" = none :=
  ⟨rfl, rfl, rfl⟩

end VouchPy
